import Mathlib

/-!
Shallow embedding of the layout core of `slide_generator` (src/main.rs).

Machine `f32` scalars are modelled as `ℚ` (the layout arithmetic is plain
field arithmetic: +, -, *, /2, comparison), `Pt` newtypes are unwrapped to
their scalar, `HashMap<FontStyle, FontId>` is modelled as a function
`FontStyle → Option FontId` (`HashMap::get`), and the `expect` panic on a
missing font style is modelled as `Except LayoutError` failure.  The
caller's mutable `Vec<Op>` is modelled as an explicit accumulator list that
each function receives and returns extended.
-/

namespace SlideGen

/-- `enum FontStyle { Regular, Bold }` (main.rs:8). -/
inductive FontStyle where
  | Regular
  | Bold
deriving DecidableEq, Repr

/-- `enum NamedColor { Black, White, Red, Green, Blue }` (main.rs:11). -/
inductive NamedColor where
  | Black
  | White
  | Red
  | Green
  | Blue
deriving DecidableEq, Repr

/-- `enum SlideColor { Named(NamedColor), Custom(f32, f32, f32) }` (main.rs:14-17). -/
inductive SlideColor where
  | Named (named : NamedColor)
  | Custom (r g b : ℚ)
deriving DecidableEq, Repr

/-- The pdf-native RGB color (`Color::Rgb(Rgb::new(r, g, b, None))`). -/
structure PdfColor where
  r : ℚ
  g : ℚ
  b : ℚ
deriving DecidableEq, Repr

/-- `SlideColor::into_pdf_color` (main.rs:20-31). -/
def SlideColor.into_pdf_color : SlideColor → PdfColor
  | .Named .Black => ⟨0, 0, 0⟩
  | .Named .White => ⟨1, 1, 1⟩
  | .Named .Red => ⟨8/10, 0, 0⟩
  | .Named .Green => ⟨0, 8/10, 0⟩
  | .Named .Blue => ⟨0, 0, 8/10⟩
  | .Custom r g b => ⟨r, g, b⟩

/-- Opaque handle returned by the font provider (`FontId`), modelled as a
bare numeric tag. -/
abbrev FontId : Type := Nat

/-- `struct DrawConfig` (main.rs:34-39). -/
structure DrawConfig where
  page_height_pt : ℚ
  base_font_size : ℚ
  default_font_style : FontStyle
  default_color : SlideColor
deriving Repr

/-- `struct TextSpan` (main.rs:51-56); the text is its sequence of Unicode
characters (`String::chars`), not bytes. -/
structure TextSpan where
  text : List Char
  style : FontStyle
  size_ratio : ℚ
  color : SlideColor
deriving DecidableEq, Repr

/-- `enum Content { Span(TextSpan), Newline }` (main.rs:60-63). -/
inductive Content where
  | Span (span : TextSpan)
  | Newline
deriving DecidableEq, Repr

/-- `enum VAlign { Top, Middle, Bottom }` (main.rs:66-70). -/
inductive VAlign where
  | Top
  | Middle
  | Bottom
deriving DecidableEq, Repr

/-- The subset of `printpdf::Op` emitted by `add_single_span` (main.rs:92-99). -/
inductive Op where
  | StartTextSection
  | SetFillColor (col : PdfColor)
  | SetTextCursor (x y : ℚ)
  | SetFontSize (size : ℚ) (font : FontId)
  | WriteText (text : List Char) (font : FontId)
  | EndTextSection
deriving DecidableEq, Repr

/-- The one failure of the core: `fonts.get(&span.style).expect(...)`
(main.rs:82) fires on a style with no registered font resource. -/
inductive LayoutError where
  | StyleNotFound
deriving DecidableEq, Repr

/-- The caller-supplied style→resource mapping
(`HashMap<FontStyle, FontId>`; lookup is `HashMap::get`). -/
def FontMap : Type := FontStyle → Option FontId

/-- `add_single_span` (main.rs:73-101): draws a single `TextSpan` at the
absolute grid coordinate `(col, row)` by appending six ops to `ops`.
The `expect` on the font lookup is modelled as `Except` failure. -/
def add_single_span (ops : List Op) (fonts : FontMap) (config : DrawConfig)
    (span : TextSpan) (col row : ℚ) : Except LayoutError (List Op) :=
  let final_pdf_color := span.color.into_pdf_color
  match fonts span.style with
  | none => .error .StyleNotFound
  | some font_id =>
    let final_font_size := config.base_font_size * span.size_ratio
    let base_unit_pt := config.base_font_size
    let x_pt := col * base_unit_pt
    let y_pt_from_top := row * base_unit_pt
    let y_from_bottom_pt := config.page_height_pt - y_pt_from_top
    let baseline_y := y_from_bottom_pt - final_font_size
    let new_ops := [Op.StartTextSection,
                    Op.SetFillColor final_pdf_color,
                    Op.SetTextCursor x_pt baseline_y,
                    Op.SetFontSize final_font_size font_id,
                    Op.WriteText span.text font_id,
                    Op.EndTextSection]
    .ok (ops ++ new_ops)

/-- The measurement pass of `draw_text_block` (main.rs:119-139), phrased on
the suffix of `contents` that starts at `current_content_index`.  Given the
running `max_font_size_ratio` accumulator (initially `1.0`, main.rs:123) it
returns `(spans_in_line, line_end_index - current_content_index,
max_font_size_ratio)`: the spans of the current line, the number of content
items the line consumes (the scan stops after consuming a `Newline`, or at
the end of the sequence), and the final maximum ratio.  The conditional
update `if span.size_ratio > max { max = span.size_ratio }` (main.rs:129-131)
is kept verbatim, applied left to right as in the source loop. -/
def measure_line : List Content → ℚ → List TextSpan × Nat × ℚ
  | [], m => ([], 0, m)
  | .Newline :: _, m => ([], 1, m)
  | .Span s :: rest, m =>
    let m2 := if s.size_ratio > m then s.size_ratio else m
    let r := measure_line rest m2
    (s :: r.1, r.2.1 + 1, r.2.2)

/-- The per-span vertical offset of the drawing pass (main.rs:146-153). -/
def y_offset (align : VAlign) (max_font_size_ratio size_ratio : ℚ) : ℚ :=
  match align with
  | .Top => 0
  | .Middle => (max_font_size_ratio - size_ratio) / 2
  | .Bottom => max_font_size_ratio - size_ratio

/-- The drawing pass of `draw_text_block` for one line (main.rs:143-160):
walks `spans_in_line` with the virtual column cursor (starting at
`start_col`), calls `add_single_span` at `(current_col, current_row +
y_offset)` and advances the cursor by
`span.text.chars().count() * span.size_ratio` (main.rs:159). -/
def place_line (fonts : FontMap) (config : DrawConfig) (max_font_size_ratio : ℚ)
    (align : VAlign) : List Op → List TextSpan → ℚ → ℚ →
    Except LayoutError (List Op)
  | ops, [], _, _ => .ok ops
  | ops, span :: rest, current_col, current_row =>
    let yo := y_offset align max_font_size_ratio span.size_ratio
    match add_single_span ops fonts config span current_col (current_row + yo) with
    | .error e => .error e
    | .ok ops2 =>
      place_line fonts config max_font_size_ratio align ops2 rest
        (current_col + (span.text.length : ℚ) * span.size_ratio) current_row

/-- Every line consumes at least one content item: the scan index strictly
advances (main.rs:132 and 135 both set `line_end_index = i + 1`). -/
theorem measure_line_consumes_pos (c : Content) (rest : List Content) (m : ℚ) :
    1 ≤ (measure_line (c :: rest) m).2.1 := by
  cases c with
  | Newline => simp [measure_line]
  | Span s => simp [measure_line]

/-- The line never consumes more items than remain. -/
theorem measure_line_consumes_le (l : List Content) (m : ℚ) :
    (measure_line l m).2.1 ≤ l.length := by
  induction l generalizing m with
  | nil => simp [measure_line]
  | cons c rest ih =>
    cases c with
    | Newline => simp [measure_line]
    | Span s =>
      simpa [measure_line, Nat.succ_le_succ_iff] using ih _

/-- The outer `while current_content_index < contents.len()` loop of
`draw_text_block` (main.rs:118-167), phrased on the unprocessed suffix of
`contents`.  Each iteration measures the current line, draws it, advances
the row cursor by `max_font_size_ratio * line_spacing_ratio` (main.rs:164),
resets the column to `start_col` (main.rs:143) and drops the consumed
items.  Terminates because every line consumes at least one item. -/
def draw_lines (fonts : FontMap) (config : DrawConfig) (start_col : ℚ)
    (line_spacing_ratio : ℚ) (align : VAlign) :
    List Op → List Content → ℚ → Except LayoutError (List Op)
  | ops, [], _ => .ok ops
  | ops, c :: rest, current_row =>
    let r := measure_line (c :: rest) 1
    match place_line fonts config r.2.2 align ops r.1 start_col current_row with
    | .error e => .error e
    | .ok ops2 =>
      draw_lines fonts config start_col line_spacing_ratio align ops2
        ((c :: rest).drop r.2.1) (current_row + r.2.2 * line_spacing_ratio)
termination_by _ l _ => l.length
decreasing_by
  simp only [List.length_drop]
  exact Nat.sub_lt (by simp) (measure_line_consumes_pos c rest 1)

/-- `draw_text_block` (main.rs:104-113): lays out a `Content` sequence as a
block starting at `(start_col, start_row)`, appending the placement ops to
the caller's `ops`. -/
def draw_text_block (ops : List Op) (fonts : FontMap) (config : DrawConfig)
    (contents : List Content) (start_col start_row line_spacing_ratio : ℚ)
    (align : VAlign) : Except LayoutError (List Op) :=
  draw_lines fonts config start_col line_spacing_ratio align ops contents start_row

/-- The spans of a content sequence, in order. -/
def spans_of (contents : List Content) : List TextSpan :=
  contents.filterMap fun c =>
    match c with
    | .Span s => some s
    | .Newline => none

/-- A demonstration style→resource mapping with both styles registered. -/
def demoFonts : FontMap := fun st =>
  match st with
  | .Regular => some 0
  | .Bold => some 1

/-- A style→resource mapping with no registered font resource at all. -/
def noFonts : FontMap := fun _ => none

/-- The `DrawConfig` of the spec scenarios: base size 24pt on an 18-row page
(page height 432pt), cf. `main` (main.rs:173-184). -/
def demoConfig : DrawConfig :=
  { page_height_pt := 432
    base_font_size := 24
    default_font_style := .Regular
    default_color := .Named .Black }

/- ### Helper lemmas -/

theorem if_gt_eq_max (r m : ℚ) : (if r > m then r else m) = max m r := by
  rcases le_or_lt r m with h | h
  · simp [max_eq_left h, not_lt.mpr h]
  · simp [max_eq_right h.le, h]

/-- The spans a line collects are exactly the spans of the consumed prefix:
the whole span list splits as the line's spans followed by the spans of the
remaining suffix. -/
theorem measure_line_spans_split (l : List Content) (m : ℚ) :
    (measure_line l m).1 ++ spans_of (l.drop (measure_line l m).2.1) = spans_of l := by
  induction l generalizing m with
  | nil => simp [measure_line, spans_of]
  | cons c rest ih =>
    cases c with
    | Newline => simp [measure_line, spans_of]
    | Span s =>
      simpa [measure_line, spans_of] using ih (if s.size_ratio > m then s.size_ratio else m)

/-- The running maximum never decreases during the measurement pass. -/
theorem measure_line_max_mono (l : List Content) (m : ℚ) :
    m ≤ (measure_line l m).2.2 := by
  induction l generalizing m with
  | nil => simp [measure_line]
  | cons c rest ih =>
    cases c with
    | Newline => simp [measure_line]
    | Span s =>
      calc m ≤ (if s.size_ratio > m then s.size_ratio else m) := by
              rw [if_gt_eq_max]; exact le_max_left _ _
        _ ≤ _ := ih _

/-- Every span collected in a line has its ratio bounded by the line's final
maximum ratio. -/
theorem measure_line_max_ge (l : List Content) (m : ℚ) (s : TextSpan)
    (hs : s ∈ (measure_line l m).1) :
    s.size_ratio ≤ (measure_line l m).2.2 := by
  induction l generalizing m with
  | nil => simp [measure_line] at hs
  | cons c rest ih =>
    cases c with
    | Newline => simp [measure_line] at hs
    | Span t =>
      simp only [measure_line, List.mem_cons] at hs
      rcases hs with rfl | hs
      · calc s.size_ratio ≤ (if s.size_ratio > m then s.size_ratio else m) := by
              rw [if_gt_eq_max]; exact le_max_right _ _
          _ ≤ _ := measure_line_max_mono _ _
      · exact ih _ hs

/-- The measurement pass computes the left fold of `max` over the collected
spans' ratios, seeded with the running accumulator. -/
theorem measure_line_max_foldl (l : List Content) (m : ℚ) :
    (measure_line l m).2.2 = ((measure_line l m).1.map TextSpan.size_ratio).foldl max m := by
  induction l generalizing m with
  | nil => simp [measure_line]
  | cons c rest ih =>
    cases c with
    | Newline => simp [measure_line]
    | Span s =>
      simp only [measure_line, List.map_cons, List.foldl_cons]
      rw [← if_gt_eq_max]
      exact ih _

/-- If any span of a line references an unregistered style, the drawing pass
of that line fails with `StyleNotFound`. -/
theorem place_line_error_of_bad (fonts : FontMap) (config : DrawConfig) (M : ℚ)
    (al : VAlign) (spans : List TextSpan) :
    ∀ (ops : List Op) (col row : ℚ),
      (∃ s ∈ spans, fonts s.style = none) →
      place_line fonts config M al ops spans col row = .error .StyleNotFound := by
  induction spans with
  | nil => intro ops col row h; simp at h
  | cons s rest ih =>
    intro ops col row h
    obtain ⟨t, ht, hnone⟩ := h
    cases hmem : fonts s.style with
    | none => simp [place_line, add_single_span, hmem]
    | some fid =>
      have htr : t ∈ rest := by
        rcases List.mem_cons.mp ht with rfl | h'
        · rw [hmem] at hnone; exact absurd hnone (by simp)
        · exact h'
      simp only [place_line, add_single_span, hmem]
      exact ih _ _ _ ⟨t, htr, hnone⟩

/-- `add_single_span` only ever appends to the caller's op list. -/
theorem add_single_span_frame (ops : List Op) (fonts : FontMap)
    (config : DrawConfig) (span : TextSpan) (col row : ℚ) :
    add_single_span ops fonts config span col row =
      (add_single_span [] fonts config span col row).map (fun t => ops ++ t) := by
  cases h : fonts span.style <;> simp [add_single_span, h, Except.map]

/-- The drawing pass of a line only ever appends to the accumulated op
list: a prefix already present is carried through untouched. -/
theorem place_line_frame (fonts : FontMap) (config : DrawConfig) (M : ℚ)
    (al : VAlign) (spans : List TextSpan) :
    ∀ (ops ops' : List Op) (col row : ℚ),
      place_line fonts config M al (ops ++ ops') spans col row =
        (place_line fonts config M al ops' spans col row).map (fun t => ops ++ t) := by
  induction spans with
  | nil => intro ops ops' col row; simp [place_line, Except.map]
  | cons s rest ih =>
    intro ops ops' col row
    cases h : fonts s.style with
    | none => simp [place_line, add_single_span, h, Except.map]
    | some fid =>
      simp only [place_line, add_single_span, h]
      rw [List.append_assoc]
      exact ih ops _ _ _

/-- After consuming one line, the remaining suffix is no longer than the
tail of the input. -/
theorem drop_measure_length_le (c : Content) (rest : List Content) :
    ((c :: rest).drop (measure_line (c :: rest) 1).2.1).length ≤ rest.length := by
  rw [List.length_drop]
  have h1 := measure_line_consumes_pos c rest 1
  simp only [List.length_cons]
  omega

/-- If any span anywhere in the block references an unregistered style, the
whole layout loop fails with `StyleNotFound` (stated with an explicit
length bound for the induction). -/
theorem draw_lines_error_of_bad (fonts : FontMap) (config : DrawConfig)
    (sc sp : ℚ) (al : VAlign) :
    ∀ (n : ℕ) (l : List Content), l.length ≤ n → ∀ (ops : List Op) (row : ℚ),
      (∃ s ∈ spans_of l, fonts s.style = none) →
      draw_lines fonts config sc sp al ops l row = .error .StyleNotFound := by
  intro n
  induction n with
  | zero =>
    intro l hl ops row h
    have hnil : l = [] := List.eq_nil_of_length_eq_zero (Nat.le_zero.mp hl)
    subst hnil
    simp [spans_of] at h
  | succ n ih =>
    intro l hl ops row h
    match l with
    | [] => simp [spans_of] at h
    | c :: rest =>
      obtain ⟨t, ht, hnone⟩ := h
      rw [← measure_line_spans_split (c :: rest) 1] at ht
      simp only [draw_lines]
      rcases List.mem_append.mp ht with hline | hrest
      · rw [place_line_error_of_bad fonts config _ al _ ops sc row ⟨t, hline, hnone⟩]
      · cases hp : place_line fonts config (measure_line (c :: rest) 1).2.2 al ops
            (measure_line (c :: rest) 1).1 sc row with
        | error e => cases e; rfl
        | ok ops2 =>
          have hlen : ((c :: rest).drop (measure_line (c :: rest) 1).2.1).length ≤ n := by
            have := drop_measure_length_le c rest
            simp only [List.length_cons] at hl
            omega
          exact ih _ hlen ops2 _ ⟨t, hrest, hnone⟩

/-- The layout loop only ever appends to the accumulated op list. -/
theorem draw_lines_frame (fonts : FontMap) (config : DrawConfig)
    (sc sp : ℚ) (al : VAlign) :
    ∀ (n : ℕ) (l : List Content), l.length ≤ n → ∀ (ops ops' : List Op) (row : ℚ),
      draw_lines fonts config sc sp al (ops ++ ops') l row =
        (draw_lines fonts config sc sp al ops' l row).map (fun t => ops ++ t) := by
  intro n
  induction n with
  | zero =>
    intro l hl ops ops' row
    have hnil : l = [] := List.eq_nil_of_length_eq_zero (Nat.le_zero.mp hl)
    subst hnil
    simp [draw_lines, Except.map]
  | succ n ih =>
    intro l hl ops ops' row
    match l with
    | [] => simp [draw_lines, Except.map]
    | c :: rest =>
      simp only [draw_lines]
      rw [place_line_frame]
      cases hp : place_line fonts config (measure_line (c :: rest) 1).2.2 al ops'
          (measure_line (c :: rest) 1).1 sc row with
      | error e => simp [Except.map]
      | ok ops2 =>
        simp only [Except.map]
        have hlen : ((c :: rest).drop (measure_line (c :: rest) 1).2.1).length ≤ n := by
          have := drop_measure_length_le c rest
          simp only [List.length_cons] at hl
          omega
        exact ih _ hlen ops ops2 _

/- ### Claim theorems -/

/-- C1: if any `Span` of the content sequence references a style with no
registered font resource, `draw_text_block` fails with `StyleNotFound` and
contributes no placement instructions (the whole call aborts, no default is
substituted). -/
theorem draw_text_block_unregistered_style_fails (ops : List Op)
    (fonts : FontMap) (config : DrawConfig) (contents : List Content)
    (sc sr sp : ℚ) (al : VAlign)
    (h : ∃ s ∈ spans_of contents, fonts s.style = none) :
    draw_text_block ops fonts config contents sc sr sp al =
      .error .StyleNotFound :=
  draw_lines_error_of_bad fonts config sc sp al contents.length contents
    le_rfl ops sr h

/-- Witness for C1: a one-span block whose style is unregistered fails. -/
theorem draw_text_block_unregistered_style_fails_witness :
    (∃ s ∈ spans_of [Content.Span ⟨['a'], .Bold, 1, .Named .Black⟩],
        noFonts s.style = none) ∧
    draw_text_block [] noFonts demoConfig
        [Content.Span ⟨['a'], .Bold, 1, .Named .Black⟩] 0 0 1 .Top =
      .error .StyleNotFound :=
  ⟨by decide,
   draw_text_block_unregistered_style_fails [] noFonts demoConfig
     [Content.Span ⟨['a'], .Bold, 1, .Named .Black⟩] 0 0 1 .Top (by decide)⟩

/-- C2 counterexample: for two spans with ratios `r1 = 1/2 < r2 = 3/4` on
one line, the smaller span's Middle-aligned offset is `(1 - 1/2)/2 = 1/4`
(the measured maximum has a floor of `1.0`), not `(r2 - r1)/2 = 1/8` as the
claim states. -/
theorem middle_offset_claim_counterexample :
    ¬ (y_offset .Middle
        (measure_line
          [Content.Span ⟨['a'], .Regular, 1/2, .Named .Black⟩,
           Content.Span ⟨['b'], .Regular, 3/4, .Named .Black⟩] 1).2.2
        (1/2) = (3/4 - 1/2) / 2) := by
  norm_num [measure_line, y_offset]

/-- C2 (amended): the Top offset of every span is always `0`; and for two
spans on one line with ratios `r1 < r2` where additionally `1 ≤ r2` (so the
line's measured maximum is `r2` rather than the floor `1.0`), the smaller
span's Middle offset is `(r2 - r1)/2` and its Bottom offset is `r2 - r1`. -/
theorem valign_offsets_on_two_span_line (t1 t2 : List Char)
    (st1 st2 : FontStyle) (c1 c2 : SlideColor) (r1 r2 : ℚ)
    (h12 : r1 < r2) (h2 : 1 ≤ r2) :
    (∀ (m r : ℚ), y_offset .Top m r = 0) ∧
    y_offset .Middle
      (measure_line [Content.Span ⟨t1, st1, r1, c1⟩,
                     Content.Span ⟨t2, st2, r2, c2⟩] 1).2.2 r1 = (r2 - r1) / 2 ∧
    y_offset .Bottom
      (measure_line [Content.Span ⟨t1, st1, r1, c1⟩,
                     Content.Span ⟨t2, st2, r2, c2⟩] 1).2.2 r1 = r2 - r1 := by
  have hM : (measure_line [Content.Span ⟨t1, st1, r1, c1⟩,
                           Content.Span ⟨t2, st2, r2, c2⟩] 1).2.2 = r2 := by
    simp only [measure_line]
    split_ifs <;> linarith
  refine ⟨fun m r => rfl, ?_, ?_⟩ <;> rw [hM] <;> simp [y_offset]

/-- Witness for C2 (amended): ratios `1 < 2`. -/
theorem valign_offsets_on_two_span_line_witness :
    ((1 : ℚ) < 2 ∧ (1 : ℚ) ≤ 2) ∧
    ((∀ (m r : ℚ), y_offset .Top m r = 0) ∧
     y_offset .Middle
       (measure_line [Content.Span ⟨['a'], .Regular, 1, .Named .Black⟩,
                      Content.Span ⟨['b'], .Regular, 2, .Named .Black⟩] 1).2.2 1 =
       (2 - 1) / 2 ∧
     y_offset .Bottom
       (measure_line [Content.Span ⟨['a'], .Regular, 1, .Named .Black⟩,
                      Content.Span ⟨['b'], .Regular, 2, .Named .Black⟩] 1).2.2 1 =
       2 - 1) :=
  ⟨⟨by norm_num, by norm_num⟩,
   valign_offsets_on_two_span_line ['a'] ['b'] .Regular .Regular
     (.Named .Black) (.Named .Black) 1 2 (by norm_num) (by norm_num)⟩

/-- C3: a span placed at grid position `(col, row)` with base size `b` and
page height `H` is anchored at `x = col * b` and baseline
`y = H - row * b - b * size_ratio`; in particular `Span "AB"` with ratio 1
at `(0, 0)` under base size 24 and page height 432 gets anchor `(0, 408)`. -/
theorem add_single_span_anchor (ops : List Op) (fonts : FontMap)
    (config : DrawConfig) (span : TextSpan) (col row : ℚ) (fid : FontId)
    (sp : ℚ) (al : VAlign) (h : fonts span.style = some fid) :
    add_single_span ops fonts config span col row =
      .ok (ops ++
        [Op.StartTextSection,
         Op.SetFillColor span.color.into_pdf_color,
         Op.SetTextCursor (col * config.base_font_size)
           (config.page_height_pt - row * config.base_font_size -
             config.base_font_size * span.size_ratio),
         Op.SetFontSize (config.base_font_size * span.size_ratio) fid,
         Op.WriteText span.text fid,
         Op.EndTextSection]) ∧
    draw_text_block [] demoFonts demoConfig
        [Content.Span ⟨['A', 'B'], .Regular, 1, .Named .Black⟩] 0 0 sp al =
      .ok [Op.StartTextSection, Op.SetFillColor ⟨0, 0, 0⟩,
           Op.SetTextCursor 0 408, Op.SetFontSize 24 0,
           Op.WriteText ['A', 'B'] 0, Op.EndTextSection] := by
  constructor
  · simp [add_single_span, h]
  · cases al <;>
      norm_num [draw_text_block, draw_lines, measure_line, place_line,
        add_single_span, y_offset, demoFonts, demoConfig,
        SlideColor.into_pdf_color]

/-- Witness for C3: the `Regular` style resolves to font handle 0. -/
theorem add_single_span_anchor_witness :
    demoFonts (TextSpan.mk ['A', 'B'] .Regular 1 (.Named .Black)).style = some 0 ∧
    (add_single_span [] demoFonts demoConfig
        ⟨['A', 'B'], .Regular, 1, .Named .Black⟩ 0 0 =
      .ok ([] ++
        [Op.StartTextSection,
         Op.SetFillColor (TextSpan.mk ['A', 'B'] .Regular 1
           (.Named .Black)).color.into_pdf_color,
         Op.SetTextCursor (0 * demoConfig.base_font_size)
           (demoConfig.page_height_pt - 0 * demoConfig.base_font_size -
             demoConfig.base_font_size *
               (TextSpan.mk ['A', 'B'] .Regular 1 (.Named .Black)).size_ratio),
         Op.SetFontSize (demoConfig.base_font_size *
           (TextSpan.mk ['A', 'B'] .Regular 1 (.Named .Black)).size_ratio) 0,
         Op.WriteText (TextSpan.mk ['A', 'B'] .Regular 1 (.Named .Black)).text 0,
         Op.EndTextSection]) ∧
     draw_text_block [] demoFonts demoConfig
        [Content.Span ⟨['A', 'B'], .Regular, 1, .Named .Black⟩] 0 0 1 .Top =
       .ok [Op.StartTextSection, Op.SetFillColor ⟨0, 0, 0⟩,
            Op.SetTextCursor 0 408, Op.SetFontSize 24 0,
            Op.WriteText ['A', 'B'] 0, Op.EndTextSection]) :=
  ⟨rfl,
   add_single_span_anchor [] demoFonts demoConfig
     ⟨['A', 'B'], .Regular, 1, .Named .Black⟩ 0 0 0 1 .Top rfl⟩

/-- A line opened by an immediate `Newline` collects no spans, emits no ops
and advances the row by the floor ratio `1.0` times the line spacing. -/
theorem draw_lines_newline (fonts : FontMap) (config : DrawConfig)
    (sc sp : ℚ) (al : VAlign) (rest : List Content) (ops : List Op) (row : ℚ) :
    draw_lines fonts config sc sp al ops (Content.Newline :: rest) row =
      draw_lines fonts config sc sp al ops rest (row + 1 * sp) := by
  simp [draw_lines, measure_line, place_line]

/-- A run of `k` consecutive newlines produces `k` blank-line advances of
`1.0 × line_spacing_ratio` each and no ops. -/
theorem draw_lines_replicate_newline (fonts : FontMap) (config : DrawConfig)
    (sc sp : ℚ) (al : VAlign) :
    ∀ (k : ℕ) (rest : List Content) (ops : List Op) (row : ℚ),
      draw_lines fonts config sc sp al ops
          (List.replicate k Content.Newline ++ rest) row =
        draw_lines fonts config sc sp al ops rest (row + (k : ℚ) * (1 * sp)) := by
  intro k
  induction k with
  | zero => intro rest ops row; simp
  | succ k ih =>
    intro rest ops row
    rw [List.replicate_succ, List.cons_append, draw_lines_newline, ih]
    congr 1
    push_cast
    ring

/-- C4: the measured dominant ratio of every line is the maximum of `1.0`
and the contained spans' size ratios; a line consisting of an immediate
`Newline` advances the row by exactly `1.0 × line_spacing_ratio` while
emitting no placement instructions, one such advance per `Newline` in a run
of consecutive newlines. -/
theorem dominant_ratio_and_blank_lines (fonts : FontMap) (config : DrawConfig)
    (sc sp : ℚ) (al : VAlign) :
    (∀ l : List Content,
       (measure_line l 1).2.2 =
         ((measure_line l 1).1.map TextSpan.size_ratio).foldl max 1) ∧
    (∀ (rest : List Content) (ops : List Op) (row : ℚ),
       draw_lines fonts config sc sp al ops (Content.Newline :: rest) row =
         draw_lines fonts config sc sp al ops rest (row + 1 * sp)) ∧
    (∀ (k : ℕ) (rest : List Content) (ops : List Op) (row : ℚ),
       draw_lines fonts config sc sp al ops
           (List.replicate k Content.Newline ++ rest) row =
         draw_lines fonts config sc sp al ops rest (row + (k : ℚ) * (1 * sp))) :=
  ⟨fun l => measure_line_max_foldl l 1,
   draw_lines_newline fonts config sc sp al,
   draw_lines_replicate_newline fonts config sc sp al⟩

/-- C5: the drawing pass is strictly additive left to right: on a line
holding spans `s1, s2`, the first is placed at column `sc` and the second at
column `sc + chars(s1) × ratio(s1)` (characters, not bytes: the text is a
character list), both scaled by the base unit in the emitted anchor. -/
theorem column_advance_additive (fonts : FontMap) (config : DrawConfig)
    (M : ℚ) (al : VAlign) (s1 s2 : TextSpan) (f1 f2 : FontId) (ops : List Op)
    (sc row : ℚ) (h1 : fonts s1.style = some f1) (h2 : fonts s2.style = some f2) :
    place_line fonts config M al ops [s1, s2] sc row =
      .ok (ops ++
        [Op.StartTextSection, Op.SetFillColor s1.color.into_pdf_color,
         Op.SetTextCursor (sc * config.base_font_size)
           (config.page_height_pt -
             (row + y_offset al M s1.size_ratio) * config.base_font_size -
             config.base_font_size * s1.size_ratio),
         Op.SetFontSize (config.base_font_size * s1.size_ratio) f1,
         Op.WriteText s1.text f1, Op.EndTextSection,
         Op.StartTextSection, Op.SetFillColor s2.color.into_pdf_color,
         Op.SetTextCursor
           ((sc + (s1.text.length : ℚ) * s1.size_ratio) * config.base_font_size)
           (config.page_height_pt -
             (row + y_offset al M s2.size_ratio) * config.base_font_size -
             config.base_font_size * s2.size_ratio),
         Op.SetFontSize (config.base_font_size * s2.size_ratio) f2,
         Op.WriteText s2.text f2, Op.EndTextSection]) := by
  simp [place_line, add_single_span, h1, h2]

/-- Witness for C5: both styles registered in the demo mapping. -/
theorem column_advance_additive_witness :
    (demoFonts (TextSpan.mk ['a'] .Regular 1 (.Named .Black)).style = some 0 ∧
     demoFonts (TextSpan.mk ['b'] .Bold 2 (.Named .White)).style = some 1) ∧
    place_line demoFonts demoConfig 2 .Top []
        [⟨['a'], .Regular, 1, .Named .Black⟩, ⟨['b'], .Bold, 2, .Named .White⟩]
        0 0 =
      .ok ([] ++
        [Op.StartTextSection,
         Op.SetFillColor (TextSpan.mk ['a'] .Regular 1
           (.Named .Black)).color.into_pdf_color,
         Op.SetTextCursor (0 * demoConfig.base_font_size)
           (demoConfig.page_height_pt -
             (0 + y_offset .Top 2 (TextSpan.mk ['a'] .Regular 1
               (.Named .Black)).size_ratio) * demoConfig.base_font_size -
             demoConfig.base_font_size *
               (TextSpan.mk ['a'] .Regular 1 (.Named .Black)).size_ratio),
         Op.SetFontSize (demoConfig.base_font_size *
           (TextSpan.mk ['a'] .Regular 1 (.Named .Black)).size_ratio) 0,
         Op.WriteText (TextSpan.mk ['a'] .Regular 1 (.Named .Black)).text 0,
         Op.EndTextSection,
         Op.StartTextSection,
         Op.SetFillColor (TextSpan.mk ['b'] .Bold 2
           (.Named .White)).color.into_pdf_color,
         Op.SetTextCursor
           ((0 + ((TextSpan.mk ['a'] .Regular 1 (.Named .Black)).text.length : ℚ) *
               (TextSpan.mk ['a'] .Regular 1 (.Named .Black)).size_ratio) *
             demoConfig.base_font_size)
           (demoConfig.page_height_pt -
             (0 + y_offset .Top 2 (TextSpan.mk ['b'] .Bold 2
               (.Named .White)).size_ratio) * demoConfig.base_font_size -
             demoConfig.base_font_size *
               (TextSpan.mk ['b'] .Bold 2 (.Named .White)).size_ratio),
         Op.SetFontSize (demoConfig.base_font_size *
           (TextSpan.mk ['b'] .Bold 2 (.Named .White)).size_ratio) 1,
         Op.WriteText (TextSpan.mk ['b'] .Bold 2 (.Named .White)).text 1,
         Op.EndTextSection]) :=
  ⟨⟨rfl, rfl⟩,
   column_advance_additive demoFonts demoConfig 2 .Top
     ⟨['a'], .Regular, 1, .Named .Black⟩ ⟨['b'], .Bold, 2, .Named .White⟩
     0 1 [] 0 0 rfl rfl⟩

/-- C6: after a line is placed the row cursor advances by the line's
dominant ratio times the line spacing and the column resets to `start_col`
(the recursive call passes `start_col` unchanged); the spec scenario
`[Span "Title" ratio 2, Newline, Span "Body" ratio 1]` with spacing `1.2`
and start row `2` places Title on row 2 (baseline y `336`) and Body on row
`2 + 2.0 × 1.2 = 4.4` (baseline y `1512/5 = 302.4`). -/
theorem line_advance_row_and_scenario :
    (∀ (fonts : FontMap) (config : DrawConfig) (sc sp : ℚ) (al : VAlign)
       (ops : List Op) (c : Content) (rest : List Content) (row : ℚ),
       draw_lines fonts config sc sp al ops (c :: rest) row =
         match place_line fonts config (measure_line (c :: rest) 1).2.2 al ops
             (measure_line (c :: rest) 1).1 sc row with
         | .error e => .error e
         | .ok ops2 =>
           draw_lines fonts config sc sp al ops2
             ((c :: rest).drop (measure_line (c :: rest) 1).2.1)
             (row + (measure_line (c :: rest) 1).2.2 * sp)) ∧
    (∀ al : VAlign,
       draw_text_block [] demoFonts demoConfig
           [Content.Span ⟨['T', 'i', 't', 'l', 'e'], .Bold, 2, .Named .Black⟩,
            Content.Newline,
            Content.Span ⟨['B', 'o', 'd', 'y'], .Regular, 1, .Named .Black⟩]
           0 2 (6/5) al =
         .ok [Op.StartTextSection, Op.SetFillColor ⟨0, 0, 0⟩,
              Op.SetTextCursor 0 336, Op.SetFontSize 48 1,
              Op.WriteText ['T', 'i', 't', 'l', 'e'] 1, Op.EndTextSection,
              Op.StartTextSection, Op.SetFillColor ⟨0, 0, 0⟩,
              Op.SetTextCursor 0 (1512/5), Op.SetFontSize 24 0,
              Op.WriteText ['B', 'o', 'd', 'y'] 0, Op.EndTextSection]) := by
  constructor
  · intro fonts config sc sp al ops c rest row
    simp only [draw_lines]
  · intro al
    cases al <;>
      norm_num [draw_text_block, draw_lines, measure_line, place_line,
        add_single_span, y_offset, demoFonts, demoConfig,
        SlideColor.into_pdf_color]

/-- C7: layout is deterministic — two runs of `draw_text_block` on equal
inputs (same prior ops, style mapping, config, contents, start position,
line spacing and alignment) produce structurally identical outputs. -/
theorem layout_deterministic (ops1 ops2 : List Op) (fonts1 fonts2 : FontMap)
    (config1 config2 : DrawConfig) (contents1 contents2 : List Content)
    (sc1 sc2 sr1 sr2 sp1 sp2 : ℚ) (al1 al2 : VAlign)
    (hops : ops1 = ops2) (hfonts : fonts1 = fonts2)
    (hconfig : config1 = config2) (hcontents : contents1 = contents2)
    (hsc : sc1 = sc2) (hsr : sr1 = sr2) (hsp : sp1 = sp2) (hal : al1 = al2) :
    draw_text_block ops1 fonts1 config1 contents1 sc1 sr1 sp1 al1 =
      draw_text_block ops2 fonts2 config2 contents2 sc2 sr2 sp2 al2 := by
  subst hops hfonts hconfig hcontents hsc hsr hsp hal
  rfl

/-- Witness for C7: two identical runs of the scenario block coincide. -/
theorem layout_deterministic_witness :
    (([] : List Op) = [] ∧ demoFonts = demoFonts ∧ demoConfig = demoConfig ∧
     [Content.Span ⟨['A'], .Regular, 1, .Named .Black⟩] =
       [Content.Span ⟨['A'], .Regular, 1, .Named .Black⟩] ∧
     (0 : ℚ) = 0 ∧ (2 : ℚ) = 2 ∧ (6/5 : ℚ) = 6/5 ∧ VAlign.Top = VAlign.Top) ∧
    draw_text_block [] demoFonts demoConfig
        [Content.Span ⟨['A'], .Regular, 1, .Named .Black⟩] 0 2 (6/5) .Top =
      draw_text_block [] demoFonts demoConfig
        [Content.Span ⟨['A'], .Regular, 1, .Named .Black⟩] 0 2 (6/5) .Top :=
  ⟨⟨rfl, rfl, rfl, rfl, rfl, rfl, rfl, rfl⟩,
   layout_deterministic [] [] demoFonts demoFonts demoConfig demoConfig
     [Content.Span ⟨['A'], .Regular, 1, .Named .Black⟩]
     [Content.Span ⟨['A'], .Regular, 1, .Named .Black⟩]
     0 0 2 2 (6/5) (6/5) .Top .Top rfl rfl rfl rfl rfl rfl rfl rfl⟩

/-- C8: the layout loop terminates in a single forward pass: on every
nonempty remaining sequence the line consumes at least one content item and
at most all of them, so the unprocessed suffix is strictly shorter — the
scan position strictly increases until it reaches the sequence length. -/
theorem layout_single_pass_terminates (l : List Content) (m : ℚ)
    (h : l ≠ []) :
    1 ≤ (measure_line l m).2.1 ∧ (measure_line l m).2.1 ≤ l.length ∧
    (l.drop (measure_line l m).2.1).length < l.length := by
  cases l with
  | nil => exact absurd rfl h
  | cons c rest =>
    refine ⟨measure_line_consumes_pos c rest m,
      measure_line_consumes_le _ m, ?_⟩
    rw [List.length_drop]
    exact Nat.sub_lt (by simp) (measure_line_consumes_pos c rest m)

/-- Witness for C8: a singleton newline sequence. -/
theorem layout_single_pass_terminates_witness :
    ([Content.Newline] ≠ []) ∧
    (1 ≤ (measure_line [Content.Newline] 1).2.1 ∧
     (measure_line [Content.Newline] 1).2.1 ≤ [Content.Newline].length ∧
     ([Content.Newline].drop
       (measure_line [Content.Newline] 1).2.1).length <
       [Content.Newline].length) :=
  ⟨by decide, layout_single_pass_terminates [Content.Newline] 1 (by decide)⟩

/-- C9: a layout call is append-only on the caller's op list — the result
is exactly the prior list followed by the ops the same call emits from an
empty accumulator, so every pre-existing instruction is unchanged and keeps
its position. -/
theorem draw_text_block_append_only (ops : List Op) (fonts : FontMap)
    (config : DrawConfig) (contents : List Content) (sc sr sp : ℚ)
    (al : VAlign) :
    draw_text_block ops fonts config contents sc sr sp al =
      (draw_text_block [] fonts config contents sc sr sp al).map
        (fun t => ops ++ t) := by
  have h := draw_lines_frame fonts config sc sp al contents.length contents
    le_rfl ops [] sr
  simpa [draw_text_block] using h

/-- C10: for every span collected in a line and every alignment mode the
computed vertical offset is nonnegative — the line's dominant ratio is at
least `1.0` and at least each contained span's ratio, with no sign
assumption on the ratios — so no span is anchored above its line's top. -/
theorem y_offset_nonneg (contents : List Content) (s : TextSpan)
    (al : VAlign) (hs : s ∈ (measure_line contents 1).1) :
    1 ≤ (measure_line contents 1).2.2 ∧
    s.size_ratio ≤ (measure_line contents 1).2.2 ∧
    0 ≤ y_offset al (measure_line contents 1).2.2 s.size_ratio := by
  have h1 : (1 : ℚ) ≤ (measure_line contents 1).2.2 :=
    measure_line_max_mono contents 1
  have h2 := measure_line_max_ge contents 1 s hs
  refine ⟨h1, h2, ?_⟩
  cases al <;> simp only [y_offset] <;> linarith

/-- Witness for C10: a span with ratio `1/2` below the line floor. -/
theorem y_offset_nonneg_witness :
    ((⟨['a'], .Regular, 1/2, .Named .Black⟩ : TextSpan) ∈
      (measure_line [Content.Span ⟨['a'], .Regular, 1/2, .Named .Black⟩] 1).1) ∧
    (1 ≤ (measure_line
        [Content.Span ⟨['a'], .Regular, 1/2, .Named .Black⟩] 1).2.2 ∧
     (⟨['a'], .Regular, 1/2, .Named .Black⟩ : TextSpan).size_ratio ≤
       (measure_line
         [Content.Span ⟨['a'], .Regular, 1/2, .Named .Black⟩] 1).2.2 ∧
     0 ≤ y_offset .Middle
       (measure_line [Content.Span ⟨['a'], .Regular, 1/2, .Named .Black⟩] 1).2.2
       (⟨['a'], .Regular, 1/2, .Named .Black⟩ : TextSpan).size_ratio) :=
  ⟨by simp [measure_line],
   y_offset_nonneg [Content.Span ⟨['a'], .Regular, 1/2, .Named .Black⟩]
     ⟨['a'], .Regular, 1/2, .Named .Black⟩ .Middle (by simp [measure_line])⟩

end SlideGen
